import Mathlib

/-!
Shallow embedding of the data-transformation core of `src/streamlit_app.py`
(QQQ 3× ETF comparison dashboard).

Prices are modelled as rationals (`ℚ`), dates as natural numbers, and a
missing cell (pandas `NaN`) as `Option.none`.  The three core functions
`_download`, `build_dataset` and `normalise` are translated directly from
the source; fallible code returns `Except String`.
-/

namespace QQQApp

/-- A provider response as returned by `yf.download`: presence flags for the
two price columns (`Adj Close`, `Close`) and rows carrying a date plus the
(possibly missing) value of each of those columns. -/
structure RawFrame where
  hasAdjClose : Bool
  hasClose : Bool
  rows : List (Nat × Option ℚ × Option ℚ)
deriving DecidableEq

/-- `_download` (src/streamlit_app.py lines 39-55): pick `Adj Close` when that
column is present, else `Close`; raise when the picked column is absent;
select the column and drop missing values (`dropna`).  The timezone strip and
the rename are pure bookkeeping on the index/column label and do not change
any value. -/
def download (f : RawFrame) : Except String (List (Nat × ℚ)) :=
  if f.hasAdjClose then
    Except.ok (f.rows.filterMap fun r => (r.2.1).map fun v => (r.1, v))
  else if f.hasClose then
    Except.ok (f.rows.filterMap fun r => (r.2.2).map fun v => (r.1, v))
  else
    Except.error "neither Close nor Adj Close found."

/-- One row of the merged frame built by `build_dataset`: date, base column
(`QQQ`), leveraged column (`QQQ3.MI`) and synthetic column (`QQQ×3`), each
cell possibly missing. -/
structure Row where
  date : Nat
  base : Option ℚ
  lev : Option ℚ
  synth : Option ℚ
deriving DecidableEq

/-- Look a date up in a series, returning its price when present.  Models the
index alignment pandas performs in `pd.concat(axis=1)`. -/
def colLookup (d : Nat) : List (Nat × ℚ) → Option ℚ
  | [] => none
  | (k, v) :: rest => if k = d then some v else colLookup d rest

/-- Insert a date into an ascending list, keeping it ascending. -/
def insertAsc (d : Nat) : List Nat → List Nat
  | [] => [d]
  | x :: xs => if d ≤ x then d :: x :: xs else x :: insertAsc d xs

/-- Insertion sort into ascending order. -/
def sortAsc (l : List Nat) : List Nat := l.foldr insertAsc []

/-- The union of two date indexes, deduplicated and sorted ascending, as
pandas forms the joint index of `pd.concat(axis=1)`. -/
def unionDates (a b : List Nat) : List Nat := sortAsc ((a ++ b).dedup)

/-- `pd.concat([qqq, qqq3], axis=1)`: one row per date of the union index,
each series contributing its value where it has that date. -/
def outerJoin (q1 q2 : List (Nat × ℚ)) : List (Nat × Option ℚ × Option ℚ) :=
  (unionDates (q1.map Prod.fst) (q2.map Prod.fst)).map
    fun d => (d, colLookup d q1, colLookup d q2)

/-- The cleaned frame of `build_dataset` (src/streamlit_app.py lines 64-66):
outer join, `dropna(how="all")`, the synthetic column `QQQ×3 = QQQ * 3`
(missing where the base is missing), then a full `dropna()`. -/
def cleanedRows (q1 q2 : List (Nat × ℚ)) : List Row :=
  let merged := (outerJoin q1 q2).filter fun r => r.2.1.isSome || r.2.2.isSome
  let withSynth := merged.map fun r =>
    Row.mk r.1 r.2.1 r.2.2 ((r.2.1).map fun v => v * 3)
  withSynth.filter fun r => r.base.isSome && r.lev.isSome && r.synth.isSome

/-- The error message `build_dataset` raises on an empty cleaned frame. -/
def emptyMsg : String :=
  "No overlapping data between QQQ and QQQ3.MI for the selected start date."

/-- `build_dataset` (src/streamlit_app.py lines 57-74), taking the two fetched
series as arguments: build the cleaned frame and raise exactly when it has no
rows. -/
def build_dataset (q1 q2 : List (Nat × ℚ)) : Except String (List Row) :=
  if (cleanedRows q1 q2).isEmpty then Except.error emptyMsg
  else Except.ok (cleanedRows q1 q2)

/-- A generic data frame as `normalise` receives it: column labels plus rows
of a date and one value per column. -/
structure DFrame where
  cols : List String
  rows : List (Nat × List ℚ)
deriving DecidableEq

/-- One row of `df.div(df.iloc[0]).mul(100)`: each cell of the row divided by
the matching cell of the first row `v0`, times 100. -/
def rebaseRow (v0 : List ℚ) (r : Nat × List ℚ) : Nat × List ℚ :=
  (r.1, (r.2.zip v0).map fun p => p.1 / p.2 * 100)

/-- `normalise` (src/streamlit_app.py lines 77-81): an empty frame is returned
unchanged; otherwise every cell is divided by its column's value in the first
row and multiplied by 100 (`df.div(df.iloc[0]).mul(100)`). -/
def normalise (df : DFrame) : DFrame :=
  match df.rows with
  | [] => df
  | r0 :: _ => ⟨df.cols, df.rows.map (rebaseRow r0.2)⟩

/-- The frame handed to `normalise` by `main` for a built dataset: the three
columns in build order, every cell present (a missing cell, impossible after
`build_dataset`, would read as 0). -/
def toFrame (t : List Row) : DFrame :=
  ⟨["QQQ", "QQQ3.MI", "QQQ×3"],
   t.map fun r => (r.date, [r.base.getD 0, r.lev.getD 0, r.synth.getD 0])⟩

/-- The cell of `df` at row index `i` (0-based, in date order) and column
index `c`. -/
def entry (df : DFrame) (i c : Nat) : Option ℚ :=
  df.rows[i]?.bind fun r => r.2[c]?

end QQQApp

namespace QQQApp

/-! ### Helper lemmas -/

lemma build_ok_eq {q1 q2 : List (Nat × ℚ)} {t : List Row}
    (h : build_dataset q1 q2 = Except.ok t) :
    t = cleanedRows q1 q2 ∧ cleanedRows q1 q2 ≠ [] := by
  unfold build_dataset at h
  split at h
  · exact absurd h (by simp)
  · next hne =>
    obtain rfl : cleanedRows q1 q2 = t := by injection h
    exact ⟨rfl, by simpa [List.isEmpty_iff] using hne⟩

lemma mem_cleanedRows {q1 q2 : List (Nat × ℚ)} {r : Row}
    (hr : r ∈ cleanedRows q1 q2) :
    ∃ b l, r.base = some b ∧ r.lev = some l ∧ r.synth = some (b * 3) := by
  unfold cleanedRows at hr
  simp only [List.mem_filter, List.mem_map] at hr
  obtain ⟨⟨⟨d, ob, ol⟩, hmem, rfl⟩, hfilt⟩ := hr
  simp only [Bool.and_eq_true, Option.isSome_iff_exists] at hfilt
  obtain ⟨⟨⟨b, hb⟩, ⟨l, hl⟩⟩, -⟩ := hfilt
  exact ⟨b, l, hb, hl, by simp [hb]⟩

lemma colLookup_mem {l : List (Nat × ℚ)} {d : Nat} {v : ℚ}
    (h : colLookup d l = some v) : (d, v) ∈ l := by
  induction l with
  | nil => simp [colLookup] at h
  | cons a rest ih =>
    obtain ⟨k, w⟩ := a
    by_cases hk : k = d
    · subst hk
      simp [colLookup] at h
      simp [h]
    · simp only [colLookup, if_neg hk] at h
      exact List.mem_cons_of_mem _ (ih h)

lemma entry_some {df : DFrame} {i c : Nat} {x : ℚ} (h : entry df i c = some x) :
    ∃ r, df.rows[i]? = some r ∧ r.2[c]? = some x := by
  unfold entry at h
  cases hr : df.rows[i]? with
  | none => rw [hr] at h; simp at h
  | some r => rw [hr] at h; exact ⟨r, rfl, by simpa using h⟩

lemma normalise_nil (cols : List String) : normalise ⟨cols, []⟩ = ⟨cols, []⟩ := rfl

lemma normalise_cons (cols : List String) (r0 : Nat × List ℚ)
    (rest : List (Nat × List ℚ)) :
    normalise ⟨cols, r0 :: rest⟩ = ⟨cols, (r0 :: rest).map (rebaseRow r0.2)⟩ := rfl

/-! ### Claim theorems -/

/-- C1: for every table returned by `build_dataset` and every row of it, the
synthetic column equals exactly 3 times the base column at that date. -/
theorem build_synth_eq_three_times_base (q1 q2 : List (Nat × ℚ)) (t : List Row)
    (h : build_dataset q1 q2 = Except.ok t) :
    ∀ r ∈ t, ∀ b : ℚ, r.base = some b → r.synth = some (3 * b) := by
  intro r hr b hb
  obtain ⟨rfl, -⟩ := build_ok_eq h
  obtain ⟨b', l, hb', -, hs⟩ := mem_cleanedRows hr
  rw [hb] at hb'
  obtain rfl : b = b' := by injection hb'
  rw [hs, mul_comm]

/-- Witness for C1 at the concrete series `[(1, 100)]`, `[(1, 50)]`. -/
theorem build_synth_eq_three_times_base_witness :
    (Row.mk 1 (some 100) (some 50) (some 300)).synth = some (3 * 100) :=
  build_synth_eq_three_times_base [(1, 100)] [(1, 50)]
    [⟨1, some 100, some 50, some 300⟩]
    (by simp [build_dataset, cleanedRows, outerJoin, unionDates, sortAsc,
          insertAsc, colLookup]; norm_num)
    ⟨1, some 100, some 50, some 300⟩ (by simp) 100 rfl

lemma normalise_entry_eq {df : DFrame} {i c : Nat} {x y : ℚ}
    (hx : entry df i c = some x) (hy : entry df 0 c = some y) :
    entry (normalise df) i c = some (x / y * 100) := by
  obtain ⟨cols, rows⟩ := df
  cases rows with
  | nil => simp [entry] at hx
  | cons r0 rest =>
    obtain ⟨r, hr, hrx⟩ := entry_some hx
    obtain ⟨r0', hr0, hr0y⟩ := entry_some hy
    rw [List.getElem?_cons_zero] at hr0
    obtain rfl : r0 = r0' := by injection hr0
    rw [normalise_cons]
    unfold entry
    simp only [List.getElem?_map, hr, Option.map_some', Option.some_bind,
      rebaseRow]
    rw [(List.getElem?_zip_eq_some (z := (x, y))).mpr ⟨hrx, hr0y⟩]
    rfl

/-- C2: `normalise` of a non-empty frame is pointwise: the cell at row `i`,
column `c` equals the input cell divided by that same column's value in the
first row, times 100. -/
theorem normalise_pointwise (df : DFrame) (i c : Nat) (x y : ℚ)
    (hx : entry df i c = some x) (hy : entry df 0 c = some y) :
    entry (normalise df) i c = some (x / y * 100) :=
  normalise_entry_eq hx hy

/-- Witness for C2 at the frame `[(1, [2]), (2, [6])]`, row 1, column 0. -/
theorem normalise_pointwise_witness :
    entry (normalise ⟨["A"], [(1, [2]), (2, [6])]⟩) 1 0 = some (6 / 2 * 100) :=
  normalise_pointwise ⟨["A"], [(1, [2]), (2, [6])]⟩ 1 0 6 2 rfl rfl

/-- C7: `normalise` of a frame with zero rows returns it unchanged. -/
theorem normalise_empty_frame (df : DFrame) (h : df.rows = []) :
    normalise df = df := by
  obtain ⟨cols, rows⟩ := df
  simp only at h
  subst h
  rfl

/-- Witness for C7 at a concrete empty frame. -/
theorem normalise_empty_frame_witness :
    normalise ⟨["QQQ", "QQQ3.MI", "QQQ×3"], []⟩ = ⟨["QQQ", "QQQ3.MI", "QQQ×3"], []⟩ :=
  normalise_empty_frame ⟨["QQQ", "QQQ3.MI", "QQQ×3"], []⟩ rfl

/-- C8: the spec's worked example: base `{2020-01-01: 100, 2020-01-02: 110}`
and leveraged `{2020-01-01: 50, 2020-01-02: 53}` build to
`{(100, 50, 300), (110, 53, 330)}`, which normalises to
`{(100, 100, 100), (110, 106, 110)}`. -/
theorem build_normalise_example :
    build_dataset [(20200101, (100 : ℚ)), (20200102, 110)]
        [(20200101, 50), (20200102, 53)]
      = Except.ok [⟨20200101, some 100, some 50, some 300⟩,
          ⟨20200102, some 110, some 53, some 330⟩]
    ∧ normalise (toFrame [⟨20200101, some 100, some 50, some 300⟩,
          ⟨20200102, some 110, some 53, some 330⟩])
      = ⟨["QQQ", "QQQ3.MI", "QQQ×3"],
         [(20200101, [100, 100, 100]), (20200102, [110, 106, 110])]⟩ :=
  ⟨by simp [build_dataset, cleanedRows, outerJoin, unionDates, sortAsc,
       insertAsc, colLookup]; norm_num,
   by simp [normalise, toFrame, rebaseRow]; norm_num⟩


/-- C4: every table returned by `build_dataset` is fully populated: no row has
a missing value in any of the three columns. -/
theorem build_no_missing_values (q1 q2 : List (Nat × ℚ)) (t : List Row)
    (h : build_dataset q1 q2 = Except.ok t) :
    ∀ r ∈ t, r.base.isSome ∧ r.lev.isSome ∧ r.synth.isSome := by
  intro r hr
  obtain ⟨rfl, -⟩ := build_ok_eq h
  obtain ⟨b, l, hb, hl, hs⟩ := mem_cleanedRows hr
  simp [hb, hl, hs]

/-- Witness for C4 at the concrete series `[(1, 100)]`, `[(1, 50)]`. -/
theorem build_no_missing_values_witness :
    (Row.mk 1 (some 100) (some 50) (some 300)).base.isSome
    ∧ (Row.mk 1 (some 100) (some 50) (some 300)).lev.isSome
    ∧ (Row.mk 1 (some 100) (some 50) (some 300)).synth.isSome :=
  build_no_missing_values [(1, 100)] [(1, 50)]
    [⟨1, some 100, some 50, some 300⟩]
    (by simp [build_dataset, cleanedRows, outerJoin, unionDates, sortAsc,
          insertAsc, colLookup]; norm_num)
    ⟨1, some 100, some 50, some 300⟩ (by simp)

/-- C5: `build_dataset` raises the empty-overlap error exactly when the
cleaned frame has zero rows, and in particular whenever the two series share
no common date. -/
theorem build_error_iff_empty_overlap (q1 q2 : List (Nat × ℚ)) :
    (build_dataset q1 q2 = Except.error emptyMsg ↔ cleanedRows q1 q2 = [])
    ∧ ((∀ p ∈ q1, ∀ q ∈ q2, p.1 ≠ q.1) →
        build_dataset q1 q2 = Except.error emptyMsg) := by
  have hiff : build_dataset q1 q2 = Except.error emptyMsg ↔
      cleanedRows q1 q2 = [] := by
    unfold build_dataset
    split
    · next he => simp [List.isEmpty_iff.mp he]
    · next he =>
      constructor
      · intro hcon
        exact absurd hcon (by simp)
      · intro hnil
        exact absurd (List.isEmpty_iff.mpr hnil) he
  refine ⟨hiff, fun hdisj => hiff.mpr ?_⟩
  unfold cleanedRows
  rw [List.filter_eq_nil_iff]
  intro r hr
  simp only [List.mem_map, List.mem_filter] at hr
  obtain ⟨⟨d, ob, ol⟩, ⟨hmem, -⟩, rfl⟩ := hr
  unfold outerJoin at hmem
  simp only [List.mem_map] at hmem
  obtain ⟨e, -, heq⟩ := hmem
  obtain ⟨rfl, rfl, rfl⟩ : e = d ∧ colLookup e q1 = ob ∧ colLookup e q2 = ol := by
    simpa [Prod.ext_iff] using heq
  cases hb : colLookup e q1 with
  | none => simp [hb]
  | some b =>
    cases hl : colLookup e q2 with
    | none => simp [hb, hl]
    | some l =>
      exact fun hcon =>
        hdisj (e, b) (colLookup_mem hb) (e, l) (colLookup_mem hl) rfl

/-- Witness for C5: two series with disjoint dates make `build_dataset`
raise the empty-overlap error. -/
theorem build_error_iff_empty_overlap_witness :
    build_dataset [((1 : Nat), (100 : ℚ))] [((2 : Nat), (50 : ℚ))]
      = Except.error emptyMsg :=
  (build_error_iff_empty_overlap [(1, 100)] [(2, 50)]).2 (by decide)

/-- C6 counterexample: a response that has zero rows but still carries a
`Close` column makes `download` return (an empty series) without raising,
against the claim that a no-rows response always raises: the code checks
only for the price columns, never the row count. -/
theorem download_empty_rows_no_error :
    (RawFrame.mk false true []).rows = []
    ∧ download ⟨false, true, []⟩ = Except.ok [] :=
  ⟨rfl, rfl⟩

/-- C6 (amended): `download` raises the unavailability error exactly when the
response contains neither an adjusted-close nor a close column; whenever
either column is present it returns a series without raising, even when the
response has no rows. -/
theorem download_error_iff (f : RawFrame) :
    (download f = Except.error "neither Close nor Adj Close found."
      ↔ f.hasAdjClose = false ∧ f.hasClose = false)
    ∧ ((f.hasAdjClose = true ∨ f.hasClose = true) →
      (download f).isOk = true) := by
  obtain ⟨a, c, rows⟩ := f
  cases a <;> cases c <;> simp_all [download, Except.isOk, Except.toBool]

/-- Witness for C6 at a response with no price columns. -/
theorem download_error_iff_witness :
    download ⟨false, false, []⟩
      = Except.error "neither Close nor Adj Close found." :=
  (download_error_iff ⟨false, false, []⟩).1.mpr ⟨rfl, rfl⟩


/-- C3 counterexample: on the frame with first-row value 0, `normalise` does
not bring the first row to 100: the first cell comes out as 0 (pandas: NaN),
which is farther than 1e-9 from 100. -/
theorem normalise_first_value_not_100 :
    entry (normalise ⟨["QQQ"], [(1, [0]), (2, [5])]⟩) 0 0 = some 0
    ∧ ¬ |(0 : ℚ) - 100| ≤ 1 / 1000000000 :=
  ⟨by simp [entry, normalise, rebaseRow], by norm_num⟩

/-- C3 (amended): for every non-empty frame, `normalise` keeps the column
labels, the row count and the row order (dates in order); and provided every
value of the first row is nonzero, every populated first-row cell of the
output equals exactly 100. -/
theorem normalise_shape_and_first_row (df : DFrame) (r0 : Nat × List ℚ)
    (rest : List (Nat × List ℚ)) (hrows : df.rows = r0 :: rest) :
    (normalise df).cols = df.cols
    ∧ (normalise df).rows.length = df.rows.length
    ∧ (normalise df).rows.map Prod.fst = df.rows.map Prod.fst
    ∧ ((∀ u ∈ r0.2, u ≠ 0) →
        ∀ c x, entry df 0 c = some x → entry (normalise df) 0 c = some 100) := by
  obtain ⟨cols, rows⟩ := df
  simp only at hrows
  subst hrows
  refine ⟨by rw [normalise_cons], by rw [normalise_cons]; simp, ?_, ?_⟩
  · rw [normalise_cons]
    simp [List.map_map, rebaseRow, Function.comp]
  · intro hnz c x hx
    have hx0 : x ≠ 0 := by
      obtain ⟨r, hr, hrc⟩ := entry_some hx
      rw [List.getElem?_cons_zero] at hr
      obtain rfl : r0 = r := by injection hr
      exact hnz x (List.getElem?_mem hrc)
    have h := normalise_entry_eq hx hx
    rwa [div_self hx0, one_mul] at h

/-- Witness for the amended C3 at the frame `[(1, [2]), (2, [6])]`. -/
theorem normalise_shape_and_first_row_witness :
    entry (normalise ⟨["A"], [(1, [2]), (2, [6])]⟩) 0 0 = some 100 :=
  (normalise_shape_and_first_row ⟨["A"], [(1, [2]), (2, [6])]⟩ (1, [2]) [(2, [6])]
    rfl).2.2.2 (by norm_num) 0 2 rfl

lemma zip_rebase_idem (v v0 : List ℚ) (h : ∀ u ∈ v0, u ≠ 0) :
    (((v.zip v0).map fun p => p.1 / p.2 * 100).zip
        ((v0.zip v0).map fun p => p.1 / p.2 * 100)).map (fun p => p.1 / p.2 * 100)
      = (v.zip v0).map fun p => p.1 / p.2 * 100 := by
  induction v generalizing v0 with
  | nil => simp
  | cons a as ih =>
    cases v0 with
    | nil => simp
    | cons b bs =>
      have hb : b ≠ 0 := h b (List.mem_cons_self b bs)
      have hbs : ∀ u ∈ bs, u ≠ 0 := fun u hu => h u (List.mem_cons_of_mem b hu)
      simp only [List.zip_cons_cons, List.map_cons]
      rw [div_self hb, one_mul, div_mul_cancel₀ _ (by norm_num : (100 : ℚ) ≠ 0),
        ih bs hbs]

lemma rebaseRow_self_idem (v0 : List ℚ) (h : ∀ u ∈ v0, u ≠ 0) (d0 : Nat)
    (r : Nat × List ℚ) :
    rebaseRow ((rebaseRow v0 (d0, v0)).2) (rebaseRow v0 r) = rebaseRow v0 r := by
  obtain ⟨dr, vr⟩ := r
  simp only [rebaseRow, Prod.mk.injEq]
  exact ⟨trivial, zip_rebase_idem vr v0 h⟩

/-- C10: `normalise` is idempotent on every frame whose first-row values are
all nonzero, the empty frame included. -/
theorem normalise_idempotent (df : DFrame)
    (h : ∀ r0, df.rows.head? = some r0 → ∀ u ∈ r0.2, u ≠ 0) :
    normalise (normalise df) = normalise df := by
  obtain ⟨cols, rows⟩ := df
  cases rows with
  | nil => rfl
  | cons r0 rest =>
    have h0 : ∀ u ∈ r0.2, u ≠ 0 := h r0 (by simp)
    obtain ⟨d0, v0⟩ := r0
    rw [normalise_cons, List.map_cons, normalise_cons]
    congr 1
    rw [List.map_cons]
    congr 1
    · exact rebaseRow_self_idem v0 h0 d0 (d0, v0)
    · rw [List.map_map]
      exact List.map_congr_left fun r hr => rebaseRow_self_idem v0 h0 d0 r

/-- Witness for C10 at the frame `[(1, [2]), (2, [6])]`. -/
theorem normalise_idempotent_witness :
    normalise (normalise ⟨["A"], [(1, [2]), (2, [6])]⟩)
      = normalise ⟨["A"], [(1, [2]), (2, [6])]⟩ :=
  normalise_idempotent ⟨["A"], [(1, [2]), (2, [6])]⟩ (by
    intro r0 hr0
    simp only [List.head?_cons, Option.some.injEq] at hr0
    subst hr0
    norm_num)

lemma normalise_entry_none {df : DFrame} {i : Nat} (h : df.rows[i]? = none)
    (c : Nat) : entry (normalise df) i c = none := by
  obtain ⟨cols, rows⟩ := df
  cases rows with
  | nil => simp [entry, normalise_nil, h]
  | cons r0 rest =>
    rw [normalise_cons]
    unfold entry
    simp only [List.getElem?_map, h]
    rfl

lemma entry_toFrame {t : List Row} {i : Nat} {r : Row} (h : t[i]? = some r)
    (c : Nat) :
    entry (toFrame t) i c = [r.base.getD 0, r.lev.getD 0, r.synth.getD 0][c]? := by
  unfold entry toFrame
  simp only [List.getElem?_map, h, Option.map_some', Option.some_bind]

/-- C9: for a built table whose first-row base value is nonzero, the
normalised synthetic column (index 2) coincides row-for-row with the
normalised base column (index 0): the constant 3x factor cancels under
rebasing. -/
theorem normalise_build_synth_matches_base (q1 q2 : List (Nat × ℚ))
    (t : List Row) (h : build_dataset q1 q2 = Except.ok t)
    (r0 : Row) (h0 : t.head? = some r0) (b0 : ℚ) (hb0 : r0.base = some b0)
    (_hnz : b0 ≠ 0) :
    ∀ i : Nat,
      entry (normalise (toFrame t)) i 2 = entry (normalise (toFrame t)) i 0 := by
  have hprops : ∀ r ∈ t,
      ∃ b l, r.base = some b ∧ r.lev = some l ∧ r.synth = some (b * 3) :=
    fun r hr => mem_cleanedRows ((build_ok_eq h).1 ▸ hr)
  have h0get : t[0]? = some r0 := by rw [← List.head?_eq_getElem?, h0]
  obtain ⟨b0', l0, hb', hl', hs'⟩ := hprops r0 (List.getElem?_mem h0get)
  rw [hb0] at hb'
  obtain rfl : b0 = b0' := by injection hb'
  intro i
  cases hget : t[i]? with
  | none =>
    have hnone : (toFrame t).rows[i]? = none := by
      unfold toFrame
      simp only [List.getElem?_map, hget]
      rfl
    rw [normalise_entry_none hnone 2, normalise_entry_none hnone 0]
  | some r =>
    obtain ⟨b, l, hb, hl, hs⟩ := hprops r (List.getElem?_mem hget)
    have e2 : entry (toFrame t) i 2 = some (b * 3) := by
      rw [entry_toFrame hget]
      simp [hs]
    have e0 : entry (toFrame t) i 0 = some b := by
      rw [entry_toFrame hget]
      simp [hb]
    have f2 : entry (toFrame t) 0 2 = some (b0 * 3) := by
      rw [entry_toFrame h0get]
      simp [hs']
    have f0 : entry (toFrame t) 0 0 = some b0 := by
      rw [entry_toFrame h0get]
      simp [hb0]
    rw [normalise_entry_eq e2 f2, normalise_entry_eq e0 f0,
      mul_div_mul_right b b0 (by norm_num : (3 : ℚ) ≠ 0)]

/-- Witness for C9 at the spec example series, row index 1. -/
theorem normalise_build_synth_matches_base_witness :
    entry (normalise (toFrame [⟨1, some 100, some 50, some 300⟩,
        ⟨2, some 110, some 53, some 330⟩])) 1 2
      = entry (normalise (toFrame [⟨1, some 100, some 50, some 300⟩,
        ⟨2, some 110, some 53, some 330⟩])) 1 0 :=
  normalise_build_synth_matches_base [(1, 100), (2, 110)] [(1, 50), (2, 53)]
    [⟨1, some 100, some 50, some 300⟩, ⟨2, some 110, some 53, some 330⟩]
    (by simp [build_dataset, cleanedRows, outerJoin, unionDates, sortAsc,
          insertAsc, colLookup]; norm_num)
    ⟨1, some 100, some 50, some 300⟩ rfl 100 rfl (by norm_num) 1

end QQQApp
